import Mathlib

/-!
# Verification of the rusticvision path tracer core

A shallow embedding, in Lean 4, of the CPU rendering core of the
`rusticvision` repository, together with theorems settling the frozen
claims about its natural-language specification.

Modelling conventions:

* `f32` values are modelled as exact rationals (`ℚ`).  All comparisons and
  arithmetic of the source are carried out exactly; rounding, NaN and the
  IEEE infinities are outside the model.  In particular `recip 0 = 0`
  (the Lean convention), where IEEE would give `±∞`; every definition below
  uses the same convention on both the code side and the spec side.
* Panics of the source (`unwrap`, remainder by zero) are modelled with
  `Except String`; out-of-range indexing into mesh collections, which the
  data-model invariants of spec §3 rule out, is modelled with `List.getD`.
* The transcendental parts (matrix inverses inside the camera, `sin`/`cos`/
  `normalize` inside the random-direction sampler) are abstracted behind
  function parameters (`Camera.getRay`, `Camera.jitteredRay`, `MathFns`):
  the claims under consideration quantify over all cameras and all
  random-number streams, and never depend on the values of those functions.
* The thread-shared random generator (`rand::random`) is modelled as an
  explicit stream of draws, indexed by recursion depth (inside `trace`)
  and by pixel and sample index (inside `render`); along any single path
  the source consumes its draws in exactly that order.

Source files embedded: `src/primitives/ray.rs`, `src/primitives/triangle/mod.rs`,
`src/primitives/aabb.rs`, `src/primitives/trianglemesh/mod.rs`,
`src/scene/object.rs`, `src/scene/mod.rs`, `src/scene/camera.rs`,
`src/scene/renderer.rs`, `src/prelude.rs`.
-/

namespace RusticVision

/-- Source `glam::Vec3A` / `glam::Vec3`: three `f32` components, modelled exactly. -/
structure Vec3 where
  x : ℚ
  y : ℚ
  z : ℚ
deriving DecidableEq, Repr

namespace Vec3

/-- Source `Vec3A::ZERO`. -/
def zero : Vec3 := ⟨0, 0, 0⟩

/-- Source `Vec3A::ONE`. -/
def one : Vec3 := ⟨1, 1, 1⟩

/-- Componentwise addition (`impl Add for Vec3A`). -/
def add (a b : Vec3) : Vec3 := ⟨a.x + b.x, a.y + b.y, a.z + b.z⟩

/-- Componentwise subtraction (`impl Sub for Vec3A`). -/
def sub (a b : Vec3) : Vec3 := ⟨a.x - b.x, a.y - b.y, a.z - b.z⟩

/-- Componentwise multiplication (`impl Mul for Vec3A`). -/
def mul (a b : Vec3) : Vec3 := ⟨a.x * b.x, a.y * b.y, a.z * b.z⟩

/-- Multiplication by a scalar (`impl Mul<f32> for Vec3A`). -/
def smul (a : Vec3) (s : ℚ) : Vec3 := ⟨a.x * s, a.y * s, a.z * s⟩

instance : Add Vec3 := ⟨add⟩

instance : Sub Vec3 := ⟨sub⟩

instance : Mul Vec3 := ⟨mul⟩

/-- Source `Vec3A::dot`. -/
def dot (a b : Vec3) : ℚ := a.x * b.x + a.y * b.y + a.z * b.z

/-- Source `Vec3A::cross`. -/
def cross (a b : Vec3) : Vec3 :=
  ⟨a.y * b.z - a.z * b.y, a.z * b.x - a.x * b.z, a.x * b.y - a.y * b.x⟩

/-- Source `Vec3A::min`, componentwise. -/
def vmin (a b : Vec3) : Vec3 := ⟨min a.x b.x, min a.y b.y, min a.z b.z⟩

/-- Source `Vec3A::max`, componentwise. -/
def vmax (a b : Vec3) : Vec3 := ⟨max a.x b.x, max a.y b.y, max a.z b.z⟩

/-- Source `Vec3A::recip`, componentwise reciprocal.  IEEE produces `±∞` on a zero
component; in the exact model `1 / 0 = 0`.  Both the embedded code and the
embedded spec formula below use this same function. -/
def recip (a : Vec3) : Vec3 := ⟨1 / a.x, 1 / a.y, 1 / a.z⟩

/-- Source `Vec3A::max_element`. -/
def maxElement (a : Vec3) : ℚ := max a.x (max a.y a.z)

/-- Source `Vec3A::min_element`. -/
def minElement (a : Vec3) : ℚ := min a.x (min a.y a.z)

end Vec3

/-- Source `f32::EPSILON = 2⁻²³`. -/
def f32Epsilon : ℚ := 1 / 2 ^ 23

/-- Source `TriangleIndex` (src/primitives/triangle/mod.rs): vertex indices, normal
index and material index of one triangle, all zero-based. -/
structure TriangleIndex where
  v1 : ℕ
  v2 : ℕ
  v3 : ℕ
  normalIndex : ℕ
  materialIndex : ℕ
deriving DecidableEq, Repr

/-- Source `Material` (src/material/mod.rs). -/
structure Material where
  ambientColor : Vec3
  diffuseColor : Vec3
  specularColor : Vec3
  specularHighlight : ℚ
  emissiveColor : Vec3
  transparency : ℚ
  indexOfRefraction : ℚ
deriving DecidableEq, Repr

/-- Source `Material::default`. -/
def Material.default : Material :=
  ⟨Vec3.zero, Vec3.zero, Vec3.zero, 0, Vec3.zero, 0, 1⟩

/-- Source `Ray` (src/primitives/ray.rs): origin and (not necessarily normalized)
direction. -/
structure Ray where
  origin : Vec3
  direction : Vec3
deriving DecidableEq, Repr

/-- Source `Ray::at(t) = origin + direction * t`. -/
def Ray.at (r : Ray) (t : ℚ) : Vec3 := r.origin + r.direction.smul t

/-- Source `Hit` (src/primitives/ray.rs): hit point, distance `t` along the
incoming ray, the incoming ray, and the index record of the hit triangle
(through which normal and material are fetched from the mesh). -/
structure Hit where
  hitPoint : Vec3
  distance : ℚ
  incoming : Ray
  triangleIndex : TriangleIndex
deriving DecidableEq, Repr

/-- Source `Hit::closest_hit` (src/primitives/ray.rs lines 84–92):
`if self.distance < other.distance { self } else { other }`. -/
def Hit.closestHit (self other : Hit) : Hit :=
  if self.distance < other.distance then self else other

/-- Source `Hit::material_index`. -/
def Hit.materialIndex (h : Hit) : ℕ := h.triangleIndex.materialIndex

/-- Source `TriangleMesh` (src/primitives/trianglemesh/mod.rs): shared immutable
store of vertex positions, face normals, materials and triangle indices. -/
structure TriangleMesh where
  vertexPositions : List Vec3
  triangleNormals : List Vec3
  materials : List Material
  triangleIndices : List TriangleIndex
deriving DecidableEq, Repr

/-- Source `Hit::material(mesh) = mesh.materials()[self.material_index()]`.
Out-of-range indexing (a panic in the source, excluded by the §3 index
validity invariant) yields the default material. -/
def Hit.material (h : Hit) (mesh : TriangleMesh) : Material :=
  mesh.materials.getD h.materialIndex Material.default

/-- Source `Triangle` (src/primitives/triangle/mod.rs): the dereferenced data of
one triangle — vertex positions, face normal, and its index record. -/
structure Triangle where
  p0 : Vec3
  p1 : Vec3
  p2 : Vec3
  normal : Vec3
  triangleIndex : TriangleIndex
deriving DecidableEq, Repr

/-- Source `TriangleMesh::get_triangle`: dereference a `TriangleIndex` against the
position and normal stores of the mesh (invalid indices panic in the source and
are excluded by §3; here they read a zero default). -/
def TriangleMesh.getTriangle (mesh : TriangleMesh) (ti : TriangleIndex) : Triangle :=
  { p0 := mesh.vertexPositions.getD ti.v1 Vec3.zero
    p1 := mesh.vertexPositions.getD ti.v2 Vec3.zero
    p2 := mesh.vertexPositions.getD ti.v3 Vec3.zero
    normal := mesh.triangleNormals.getD ti.normalIndex Vec3.zero
    triangleIndex := ti }

/-- Source `impl Intersectable for Triangle` (src/primitives/triangle/mod.rs lines
178–216), the Möller–Trumbore test, translated clause by clause. -/
def Triangle.intersect (tri : Triangle) (ray : Ray) (tMin tMax : ℚ) : Option Hit :=
  let edge0 := tri.p1 - tri.p0
  let edge1 := tri.p2 - tri.p0
  let h := ray.direction.cross edge1
  let a := edge0.dot h
  if |a| < f32Epsilon then
    none
  else
    let f := 1 / a
    let s := ray.origin - tri.p0
    let u := f * s.dot h
    if ¬ (0 ≤ u ∧ u ≤ 1) then
      none
    else
      let q := s.cross edge0
      let v := f * ray.direction.dot q
      if v < 0 ∨ u + v > 1 then
        none
      else
        let t := f * edge1.dot q
        if t > tMin ∧ t < tMax then
          some ⟨ray.at t, t, ray, tri.triangleIndex⟩
        else
          none

/-- Source `BoundingBox` (src/primitives/aabb.rs). -/
structure BoundingBox where
  boxMin : Vec3
  boxMax : Vec3
deriving DecidableEq, Repr

/-- Source `BoundingBox::intersect` (src/primitives/aabb.rs lines 29–41), the slab
test, returning a boolean culling decision only. -/
def BoundingBox.intersect (box : BoundingBox) (ray : Ray) (tMin tMax : ℚ) : Bool :=
  let invDir := ray.direction.recip
  let t0 := (box.boxMin - ray.origin) * invDir
  let t1 := (box.boxMax - ray.origin) * invDir
  let tSmall := t0.vmin t1
  let tBig := t0.vmax t1
  let tMin' := max tMin tSmall.maxElement
  let tMax' := min tMax tBig.minElement
  tMax' ≥ tMin'

/-- Source `Object` (src/scene/object.rs): a named contiguous triangle range of the
mesh together with its precomputed bounding box.  The source object holds an
`Arc<TriangleMesh>`; here the shared mesh is passed explicitly to
`Object.intersect`, mirroring the read-only sharing discipline. -/
structure Object where
  identifier : String
  triangleStartIndex : ℕ
  triangleCount : ℕ
  boundingBox : BoundingBox
deriving DecidableEq, Repr

/-- Source `Object::triangle_indices`: the slice
`mesh.triangle_indices()[start .. start + count]`. -/
def Object.triangleIndicesOf (obj : Object) (mesh : TriangleMesh) : List TriangleIndex :=
  (mesh.triangleIndices.drop obj.triangleStartIndex).take obj.triangleCount

/-- The closest-hit folding loop shared by `Object::intersect` and
`Scene::intersect`: each new hit is combined with the accumulator by
`hit.closest_hit(closest)` (the new hit as `self`). -/
def closestFold : List (Option Hit) → Option Hit → Option Hit
  | [], acc => acc
  | oh :: rest, acc =>
      let acc' := match oh, acc with
        | some hit, some closest => some (hit.closestHit closest)
        | some hit, none => some hit
        | none, a => a
      closestFold rest acc'

/-- Source `impl Intersectable for Object` (src/scene/object.rs lines 73–91): if
the ray misses the bounding box return `None` immediately, otherwise take
the closest triangle hit over the triangle range of the object. -/
def Object.intersect (obj : Object) (mesh : TriangleMesh) (ray : Ray)
    (tMin tMax : ℚ) : Option Hit :=
  if ¬ obj.boundingBox.intersect ray tMin tMax then
    none
  else
    closestFold
      ((obj.triangleIndicesOf mesh).map
        (fun ti => (mesh.getTriangle ti).intersect ray tMin tMax))
      none

/-- Source `Scene` (src/scene/mod.rs): ordered objects sharing one mesh. -/
structure Scene where
  objects : List Object
  triangleMesh : TriangleMesh
deriving DecidableEq, Repr

/-- Source `impl Intersectable for Scene` (src/scene/mod.rs lines 84–98): linear
scan over the objects, keeping the globally closest hit. -/
def Scene.intersect (s : Scene) (ray : Ray) (tMin tMax : ℚ) : Option Hit :=
  closestFold
    (s.objects.map (fun obj => obj.intersect s.triangleMesh ray tMin tMax))
    none

/-- The transcendental functions used by `Hit::random_outgoing_ray`
(`f32::sin`, `f32::cos`, `Vec3A::normalize`, `std::f32::consts::PI`),
abstracted: the claims quantify over every random stream and never depend
on the values of these functions. -/
structure MathFns where
  fsin : ℚ → ℚ
  fcos : ℚ → ℚ
  fpi : ℚ
  normalize : Vec3 → Vec3

/-- Source `Hit::random_outgoing_ray(mesh)` (src/primitives/ray.rs lines 128–150)
with the two `rand::random::<f32>()` draws `r1`, `r2` passed explicitly:
build the triangle-local frame from the geometry of the hit triangle, convert the
two uniform draws into spherical coordinates, and return the ray from the
hit point in the resulting world direction. -/
def Hit.randomOutgoingRay (h : Hit) (fns : MathFns) (mesh : TriangleMesh)
    (r1 r2 : ℚ) : Ray :=
  let triangle := mesh.getTriangle h.triangleIndex
  let up := triangle.normal
  let right := fns.normalize (triangle.p1 - triangle.p0)
  let forward := right.cross up
  let theta := r1 * 2 * fns.fpi
  let phi := r2 * fns.fpi
  let sphericalPoint : Vec3 :=
    ⟨(fns.fsin phi) * (fns.fcos theta), (fns.fsin phi) * (fns.fsin theta), fns.fcos phi⟩
  let direction :=
    right.smul sphericalPoint.x + forward.smul sphericalPoint.y + up.smul sphericalPoint.z
  let direction := fns.normalize direction
  ⟨h.hitPoint, direction⟩

/-- Source `SceneRenderer::trace` (src/scene/renderer.rs lines 76–92).  `d` is the
`recursion_depth` of the renderer; `rng depth` supplies the two random draws the
call at `depth` feeds to `random_outgoing_ray`. -/
def trace (s : Scene) (fns : MathFns) (d : ℕ) (rng : ℕ → ℚ × ℚ)
    (ray : Ray) (depth : ℕ) (throughput : Vec3) : Vec3 :=
  if depth > d then
    Vec3.zero
  else
    match s.intersect ray (1 / 100) 100 with
    | none => Vec3.zero
    | some hit =>
        let material := hit.material s.triangleMesh
        let color := Vec3.zero + (material.emissiveColor * throughput).smul 5
        let throughput := throughput * material.diffuseColor
        color +
          trace s fns d rng
            (hit.randomOutgoingRay fns s.triangleMesh (rng depth).1 (rng depth).2)
            (depth + 1) throughput
termination_by d + 1 - depth
decreasing_by
  simp only [gt_iff_lt, not_lt] at *
  omega

/-- Modelled from the spec: the `trace(ray, depth, throughput)` procedure as
§4.8 words it — return black past the depth limit, intersect with bounds
(0.01, 100.0), return black on a miss, otherwise accumulate
`emissive · throughput · 5.0`, attenuate the throughput componentwise by the
diffuse colour, and add the trace of the random outgoing ray at depth+1. -/
def traceSpec (s : Scene) (fns : MathFns) (d : ℕ) (rng : ℕ → ℚ × ℚ)
    (ray : Ray) (depth : ℕ) (throughput : Vec3) : Vec3 :=
  if depth > d then
    Vec3.zero
  else
    match s.intersect ray (1 / 100) 100 with
    | none => Vec3.zero
    | some hit =>
        let mat := hit.material s.triangleMesh
        (mat.emissiveColor * throughput).smul 5 +
          traceSpec s fns d rng
            (hit.randomOutgoingRay fns s.triangleMesh (rng depth).1 (rng depth).2)
            (depth + 1) (throughput * mat.diffuseColor)
termination_by d + 1 - depth
decreasing_by
  simp only [gt_iff_lt, not_lt] at *
  omega

/-- The number of `scene.intersect` calls `trace` performs along its
(single) recursion path: one per invocation that passes the depth guard,
plus the calls of the recursive invocation made on a hit. -/
def traceCalls (s : Scene) (fns : MathFns) (d : ℕ) (rng : ℕ → ℚ × ℚ)
    (ray : Ray) (depth : ℕ) : ℕ :=
  if depth > d then
    0
  else
    match s.intersect ray (1 / 100) 100 with
    | none => 1
    | some hit =>
        1 + traceCalls s fns d rng
              (hit.randomOutgoingRay fns s.triangleMesh (rng depth).1 (rng depth).2)
              (depth + 1)
termination_by d + 1 - depth
decreasing_by
  simp only [gt_iff_lt, not_lt] at *
  omega

/-- Source `Camera` (src/scene/camera.rs), at the interface the renderer consumes:
image dimensions, `get_ray` and `get_jittered_ray`.  The projective ray
construction (matrix inverses, `normalize`) is abstracted into the two
function fields — `jitteredRay x y k` is the jittered primary ray for pixel
`(x, y)` at sample `k`, with its two uniform jitter draws absorbed — since
every claim below quantifies over all cameras. -/
structure Camera where
  width : ℕ
  height : ℕ
  getRay : ℕ → ℕ → Ray
  jitteredRay : ℕ → ℕ → ℕ → Ray

/-- Source `Camera::get_dimensions`. -/
def Camera.getDimensions (c : Camera) : ℕ × ℕ := (c.width, c.height)

/-- Source `Camera::get_camera_rays` (src/scene/camera.rs lines 53–62): the nested
loops `for x in 0..=width { for y in 0..=height { rays.push(get_ray(x, y)) } }`
— both ranges inclusive — pushing in x-major order. -/
def Camera.getCameraRays (c : Camera) : List Ray :=
  (List.range (c.width + 1)).flatMap
    (fun x => (List.range (c.height + 1)).map (fun y => c.getRay x y))

/-- One 8-bit RGB pixel. -/
structure Rgb where
  r : ℕ
  g : ℕ
  b : ℕ
deriving DecidableEq, Repr

/-- The saturating Rust `f32 as u8` cast: truncate toward zero, clamp to
[0, 255]. -/
def f32ToU8 (q : ℚ) : ℕ := min 255 (max 0 ⌊q⌋).toNat

/-- Source `SceneRenderer::vec3_to_rgb` (src/scene/renderer.rs lines 94–100). -/
def vec3ToRgb (color : Vec3) : Rgb :=
  ⟨f32ToU8 (color.x * 255), f32ToU8 (color.y * 255), f32ToU8 (color.z * 255)⟩

/-- Source `SceneRenderer::render_pixel` (src/scene/renderer.rs lines 68–74):
average of `sampleCount` traced samples, each from a fresh jittered ray.
`rng k depth` supplies the draws of sample `k` at recursion depth `depth`. -/
def renderPixel (s : Scene) (fns : MathFns) (cam : Camera)
    (sampleCount d : ℕ) (rng : ℕ → ℕ → ℚ × ℚ) (x y : ℕ) : Vec3 :=
  (((List.range sampleCount).map
      (fun k => trace s fns d (rng k) (cam.jitteredRay x y k) 0 Vec3.one)).foldl
    Vec3.add Vec3.zero).smul (1 / (sampleCount : ℚ))

/-- The `u32` remainder `progress % update_count` of the render loop: Rust
panics when the divisor is zero. -/
def checkedMod (a b : ℕ) : Except String ℕ :=
  if b = 0 then
    Except.error "attempt to calculate the remainder with a divisor of zero"
  else
    Except.ok (a % b)

/-- The per-pixel tail of the closure of `SceneRenderer::render`: after writing a
pixel, every iteration evaluates `progress % update_count` for the progress
display, so each visited pixel either passes `checkedMod` or panics. -/
def renderLoop (updateCount : ℕ) : List (ℕ × ℕ) → ℕ → Except String Unit
  | [], _ => Except.ok ()
  | _ :: rest, progress =>
      (checkedMod progress updateCount).bind
        (fun _ => renderLoop updateCount rest (progress + 1))

/-- The final output image: dimensions plus the pixel written at each
coordinate (each pixel is written exactly once). -/
structure Image where
  width : ℕ
  height : ℕ
  pix : ℕ → ℕ → Rgb

/-- Source `SceneRenderer::render` (src/scene/renderer.rs lines 47–66):
`update_count = width * height / 100`; every pixel of the `width × height`
grid is rendered, written at `(x, y)`, and runs the progress computation
`progress % update_count`; the result is the `width × height` image.
`rng x y k depth` is the random stream of pixel `(x, y)`, sample `k`. -/
def render (s : Scene) (fns : MathFns) (cam : Camera) (sampleCount d : ℕ)
    (rng : ℕ → ℕ → ℕ → ℕ → ℚ × ℚ) : Except String Image :=
  let (width, height) := cam.getDimensions
  let updateCount := width * height / 100
  let pixels :=
    (List.range width).flatMap (fun x => (List.range height).map (fun y => (x, y)))
  (renderLoop updateCount pixels 0).map
    (fun _ =>
      { width := width
        height := height
        pix := fun x y => vec3ToRgb (renderPixel s fns cam sampleCount d (rng x y) x y) })

/-- The private `CameraBuilder` of the configuration façade
(src/prelude.rs lines 163–246). -/
structure PreludeCameraBuilder where
  position : Option Vec3
  target : Option Vec3
  zNear : Option ℚ
  zFar : Option ℚ
  verticalFov : Option ℚ
deriving DecidableEq, Repr

/-- Source `CameraBuilder::new`: every field unset. -/
def PreludeCameraBuilder.new : PreludeCameraBuilder :=
  ⟨none, none, none, none, none⟩

/-- Source `CameraBuilder::with_position`. -/
def PreludeCameraBuilder.withPosition (b : PreludeCameraBuilder)
    (x y z : ℚ) : PreludeCameraBuilder :=
  { b with position := some ⟨x, y, z⟩ }

/-- The `CameraData` that `CameraBuilder::build` hands to the renderer,
restricted to the fields the claims mention: the camera position.  (The
inverse projection and view matrices it also carries are transcendental and
unused by any claim.) -/
structure CameraData where
  position : Vec3
deriving DecidableEq, Repr

/-- Source `CameraBuilder::build` (src/prelude.rs lines 220–239), position part:
`let position = self.position.unwrap_or([0.0, 1.0, 0.0]);` — the defaults
applied are fov 39.6, z_near 0.1, z_far 1000.0, position (0, 1, 0),
target (0, 0, 0). -/
def PreludeCameraBuilder.build (b : PreludeCameraBuilder)
    (_imageSize : ℕ × ℕ) : CameraData :=
  { position := b.position.getD ⟨0, 1, 0⟩ }

/-- Source `RayTracer` (src/prelude.rs lines 5–12), the builder-style façade. -/
structure RayTracer where
  cameraBuilder : PreludeCameraBuilder
  directory : Option String
  objFile : Option String
  sampleCount : Option ℕ
  recursionDepth : Option ℕ
  imageResolution : Option (ℕ × ℕ)
deriving DecidableEq, Repr

/-- Source `RayTracer::new`: every option unset. -/
def RayTracer.new : RayTracer :=
  ⟨PreludeCameraBuilder.new, none, none, none, none, none⟩

/-- Source `RayTracer::camera_position` (src/prelude.rs lines 64–69). -/
def RayTracer.cameraPosition (rt : RayTracer) (x y z : ℚ) : RayTracer :=
  { rt with cameraBuilder := rt.cameraBuilder.withPosition x y z }

/-- Source `RayTracer::sample_count`. -/
def RayTracer.sampleCountSet (rt : RayTracer) (n : ℕ) : RayTracer :=
  { rt with sampleCount := some n }

/-- Source `RayTracer::resolution`. -/
def RayTracer.resolution (rt : RayTracer) (w h : ℕ) : RayTracer :=
  { rt with imageResolution := some (w, h) }

/-- The camera `RayTracer::render` builds (src/prelude.rs line 137):
`self.camera_builder.clone().build((width, height))` with the resolution
defaulting to (800, 600). -/
def RayTracer.renderCamera (rt : RayTracer) : CameraData :=
  rt.cameraBuilder.build (rt.imageResolution.getD (800, 600))

/-! ## Spec-side definitions for the refinement claims -/

/-- Modelled from the spec: the Möller–Trumbore procedure exactly as §4.2
numbers it — (1) edges, (2) `h`, `a`, (3) miss when `|a| < ε`, (4) miss when
`u ∉ [0,1]`, (5) miss when `v < 0` or `u + v > 1`, (6) hit
`Hit(O + D·t, t, ray, indices)` when `t ∈ (t_min, t_max)`, else miss. -/
def mollerTrumboreSpec (tri : Triangle) (ray : Ray) (tMin tMax : ℚ) : Option Hit :=
  let e0 := tri.p1 - tri.p0
  let e1 := tri.p2 - tri.p0
  let h := ray.direction.cross e1
  let a := e0.dot h
  if |a| < f32Epsilon then
    none
  else
    let f := 1 / a
    let s := ray.origin - tri.p0
    let u := f * s.dot h
    if u < 0 ∨ u > 1 then
      none
    else
      let q := s.cross e0
      let v := f * ray.direction.dot q
      if v < 0 ∨ u + v > 1 then
        none
      else
        let t := f * e1.dot q
        if tMin < t ∧ t < tMax then
          some ⟨ray.origin + ray.direction.smul t, t, ray, tri.triangleIndex⟩
        else
          none

/-- Modelled from the spec: the slab-test acceptance predicate of §4.3 —
the ray hits iff `max(t_min, t_small.max_component) ≤ min(t_max,
t_big.min_component)` with `t0 = (min − O)·inv_D`, `t1 = (max − O)·inv_D`,
`t_small`/`t_big` the componentwise min/max. -/
def slabHitSpec (box : BoundingBox) (ray : Ray) (tMin tMax : ℚ) : Prop :=
  let invD := ray.direction.recip
  let t0 := (box.boxMin - ray.origin) * invD
  let t1 := (box.boxMax - ray.origin) * invD
  let tSmall := t0.vmin t1
  let tBig := t0.vmax t1
  max tMin tSmall.maxElement ≤ min tMax tBig.minElement

/-! ## Claims -/

/-- Claim C2, counterexample: The tie-breaking direction of the claim is false:
at two equal-distance hits that differ elsewhere, `Hit.closest_hit` returns
its second argument, not the first. -/
theorem closestHit_tie_counterexample :
    Hit.closestHit ⟨Vec3.zero, 1, ⟨Vec3.zero, Vec3.one⟩, ⟨0, 0, 0, 0, 0⟩⟩
        ⟨Vec3.zero, 1, ⟨Vec3.zero, Vec3.one⟩, ⟨0, 0, 0, 0, 1⟩⟩ =
      ⟨Vec3.zero, 1, ⟨Vec3.zero, Vec3.one⟩, ⟨0, 0, 0, 0, 1⟩⟩ ∧
    Hit.closestHit ⟨Vec3.zero, 1, ⟨Vec3.zero, Vec3.one⟩, ⟨0, 0, 0, 0, 0⟩⟩
        ⟨Vec3.zero, 1, ⟨Vec3.zero, Vec3.one⟩, ⟨0, 0, 0, 0, 1⟩⟩ ≠
      ⟨Vec3.zero, 1, ⟨Vec3.zero, Vec3.one⟩, ⟨0, 0, 0, 0, 0⟩⟩ := by
  decide

/-- Claim C2, amended: `Hit.closest_hit(a, b)` returns the strictly closer
hit and its distance is `min(a.distance, b.distance)`; when the distances
are equal it returns the second argument `b`. -/
theorem closestHit_min_tie_second (a b : Hit) :
    (Hit.closestHit a b).distance = min a.distance b.distance ∧
    (a.distance < b.distance → Hit.closestHit a b = a) ∧
    (b.distance < a.distance → Hit.closestHit a b = b) ∧
    (a.distance = b.distance → Hit.closestHit a b = b) := by
  refine ⟨?_, ?_, ?_, ?_⟩
  · by_cases h : a.distance < b.distance
    · simp [Hit.closestHit, h, min_eq_left h.le]
    · simp [Hit.closestHit, h, min_eq_right (not_lt.mp h)]
  · intro h
    simp [Hit.closestHit, h]
  · intro h
    simp [Hit.closestHit, not_lt.mpr h.le]
  · intro h
    simp [Hit.closestHit, h]

/-- Claim C2, witness: The amended tie case evaluated at two concrete
equal-distance hits. -/
theorem closestHit_min_tie_second_witness :
    Hit.closestHit ⟨Vec3.zero, 2, ⟨Vec3.zero, Vec3.one⟩, ⟨1, 2, 3, 0, 0⟩⟩
        ⟨Vec3.one, 2, ⟨Vec3.zero, Vec3.one⟩, ⟨4, 5, 6, 0, 1⟩⟩ =
      ⟨Vec3.one, 2, ⟨Vec3.zero, Vec3.one⟩, ⟨4, 5, 6, 0, 1⟩⟩ :=
  (closestHit_min_tie_second _ _).2.2.2 (by decide)

/-- Claim C4: `Triangle::intersect` coincides, at every triangle, ray and
bound pair, with the Möller–Trumbore procedure exactly as §4.2 states it:
miss when `|a| < ε` (hence at `a = 0`), when `u ∉ [0,1]`, when `v < 0` or
`u + v > 1`, or when `t ∉ (t_min, t_max)`; otherwise a hit at point
`ray.at(t)` with distance `t`. -/
theorem triangle_intersect_eq_mollerTrumbore (tri : Triangle) (ray : Ray)
    (tMin tMax : ℚ) :
    tri.intersect ray tMin tMax = mollerTrumboreSpec tri ray tMin tMax := by
  unfold Triangle.intersect mollerTrumboreSpec Ray.at
  simp only [not_and_or, not_le, gt_iff_lt]

/-- Claim C5: `BoundingBox::intersect` returns `true` exactly when the §4.3
slab formula `max(t_min, t_small.max) ≤ min(t_max, t_big.min)` holds; the
comparison is non-strict, so equal lower and upper slab bounds (a ray
grazing a box face) are accepted. -/
theorem aabb_intersect_iff_slab (box : BoundingBox) (ray : Ray)
    (tMin tMax : ℚ) :
    box.intersect ray tMin tMax = true ↔ slabHitSpec box ray tMin tMax := by
  unfold BoundingBox.intersect slabHitSpec
  exact decide_eq_true_iff

/-- Claim C8, counterexample: A `RayTracer` on which `camera_position` was
never set builds its render camera at (0, 1, 0), not at (0, 0, 0). -/
theorem rayTracer_default_position_counterexample :
    RayTracer.new.renderCamera.position = ⟨0, 1, 0⟩ ∧
    (⟨0, 1, 0⟩ : Vec3) ≠ ⟨0, 0, 0⟩ := by
  decide

/-- Claim C8, amended: If `camera_position` is never set on the
configuration façade, the camera built for rendering has position
(0, 1, 0). -/
theorem rayTracer_unset_position_default (rt : RayTracer)
    (h : rt.cameraBuilder.position = none) :
    rt.renderCamera.position = ⟨0, 1, 0⟩ := by
  simp [RayTracer.renderCamera, PreludeCameraBuilder.build, h]

/-- Claim C8, witness: The amended default evaluated on a façade configured
with unrelated setters only. -/
theorem rayTracer_unset_position_default_witness :
    ((RayTracer.new.sampleCountSet 4).resolution 100 50).renderCamera.position =
      ⟨0, 1, 0⟩ :=
  rayTracer_unset_position_default ((RayTracer.new.sampleCountSet 4).resolution 100 50)
    (by decide)

lemma Vec3.add_def (a b : Vec3) :
    a + b = ⟨a.x + b.x, a.y + b.y, a.z + b.z⟩ := rfl

lemma Vec3.sub_def (a b : Vec3) :
    a - b = ⟨a.x - b.x, a.y - b.y, a.z - b.z⟩ := rfl

lemma Vec3.mul_def (a b : Vec3) :
    a * b = ⟨a.x * b.x, a.y * b.y, a.z * b.z⟩ := rfl

lemma triangleIntersect_distance_bounds (tri : Triangle) (ray : Ray)
    (tMin tMax : ℚ) (hit : Hit) (h : tri.intersect ray tMin tMax = some hit) :
    tMin < hit.distance ∧ hit.distance < tMax := by
  simp only [Triangle.intersect] at h
  split_ifs at h with h1 h2 h3 h4
  · cases h
    exact ⟨h4.1, h4.2⟩

lemma Hit.closestHit_eq_or (a b : Hit) : a.closestHit b = a ∨ a.closestHit b = b := by
  unfold Hit.closestHit
  split
  · exact Or.inl rfl
  · exact Or.inr rfl

lemma closestFold_bounds {P : Hit → Prop} :
    ∀ (l : List (Option Hit)) (acc : Option Hit),
      (∀ oh ∈ l, ∀ hit, oh = some hit → P hit) →
      (∀ hit, acc = some hit → P hit) →
      ∀ hit, closestFold l acc = some hit → P hit := by
  intro l
  induction l with
  | nil =>
      intro acc _ hacc hit h
      exact hacc hit h
  | cons oh rest ih =>
      intro acc hl hacc hit h
      refine ih _ (fun oh' hmem hit' h' => hl oh' (List.mem_cons_of_mem _ hmem) hit' h') ?_ hit h
      intro hit' h'
      cases oh with
      | none => exact hacc hit' h'
      | some hv =>
          cases acc with
          | none =>
              have he : hv = hit' := by simpa using h'
              exact he ▸ hl (some hv) (List.mem_cons_self _ _) hv rfl
          | some av =>
              have he : hv.closestHit av = hit' := by simpa using h'
              rcases Hit.closestHit_eq_or hv av with h2 | h2
              · exact (h2 ▸ he) ▸ hl (some hv) (List.mem_cons_self _ _) hv rfl
              · exact hacc hit' (by rw [← he, h2])

lemma objectIntersect_distance_bounds (obj : Object) (mesh : TriangleMesh)
    (ray : Ray) (tMin tMax : ℚ) (hit : Hit)
    (h : obj.intersect mesh ray tMin tMax = some hit) :
    tMin < hit.distance ∧ hit.distance < tMax := by
  unfold Object.intersect at h
  split_ifs at h
  refine closestFold_bounds
    (P := fun hit => tMin < hit.distance ∧ hit.distance < tMax)
    _ none ?_ (by simp) hit h
  intro oh hmem hit' h'
  obtain ⟨ti, _, rfl⟩ := List.mem_map.mp hmem
  exact triangleIntersect_distance_bounds _ _ _ _ _ h'

/-- Claim C6: Any hit returned by `scene.intersect(ray, t_min, t_max)`
satisfies `t_min < hit.distance < t_max`. -/
theorem scene_intersect_distance_bounds (s : Scene) (ray : Ray)
    (tMin tMax : ℚ) (hit : Hit) (h : s.intersect ray tMin tMax = some hit) :
    tMin < hit.distance ∧ hit.distance < tMax := by
  unfold Scene.intersect at h
  refine closestFold_bounds
    (P := fun hit => tMin < hit.distance ∧ hit.distance < tMax)
    _ none ?_ (by simp) hit h
  intro oh hmem hit' h'
  obtain ⟨obj, _, rfl⟩ := List.mem_map.mp hmem
  exact objectIntersect_distance_bounds _ _ _ _ _ _ h'

/-- A one-triangle mesh used to evaluate the scene-intersection claims. -/
def exampleMesh : TriangleMesh :=
  ⟨[⟨-10, -10, 5⟩, ⟨10, -10, 5⟩, ⟨0, 10, 5⟩], [⟨0, 0, -1⟩],
    [Material.default], [⟨0, 1, 2, 0, 0⟩]⟩

/-- A one-object scene over `exampleMesh`, with the precomputed
bounding box of the object. -/
def exampleScene : Scene :=
  ⟨[⟨"triangle", 0, 1, ⟨⟨-10, -10, 5⟩, ⟨10, 10, 5⟩⟩⟩], exampleMesh⟩

/-- A ray from the origin that hits the triangle of `exampleMesh` at `t = 5`. -/
def exampleRay : Ray := ⟨Vec3.zero, ⟨1 / 2, 1 / 2, 1⟩⟩

/-- Claim C6, witness: The invariant evaluated on a concrete scene whose
intersection with `exampleRay` at bounds (0.01, 100) is a hit at distance 5. -/
theorem scene_intersect_distance_bounds_witness :
    (1 / 100 : ℚ) < (5 : ℚ) ∧ (5 : ℚ) < (100 : ℚ) :=
  scene_intersect_distance_bounds exampleScene exampleRay (1 / 100) 100
    ⟨⟨5 / 2, 5 / 2, 5⟩, 5, exampleRay, ⟨0, 1, 2, 0, 0⟩⟩ (by
      norm_num [Scene.intersect, Object.intersect, Object.triangleIndicesOf,
        closestFold, BoundingBox.intersect, Triangle.intersect,
        TriangleMesh.getTriangle, exampleScene, exampleMesh, exampleRay,
        Ray.at, f32Epsilon, Vec3.zero, Vec3.one, Vec3.dot, Vec3.cross,
        Vec3.recip, Vec3.vmin, Vec3.vmax, Vec3.maxElement, Vec3.minElement,
        Vec3.smul, Vec3.add_def, Vec3.sub_def, Vec3.mul_def,
        min_def, max_def, abs])

lemma Vec3.zeroAdd (v : Vec3) : Vec3.zero + v = v := by
  cases v
  simp [Vec3.add_def, Vec3.zero]

lemma traceCalls_le_sub (s : Scene) (fns : MathFns) (d : ℕ) (rng : ℕ → ℚ × ℚ) :
    ∀ (k depth : ℕ), d + 1 - depth ≤ k → ∀ ray : Ray,
      traceCalls s fns d rng ray depth ≤ d + 1 - depth := by
  intro k
  induction k with
  | zero =>
      intro depth hk ray
      rw [traceCalls]
      have hd : depth > d := by omega
      simp [hd]
  | succ k ih =>
      intro depth hk ray
      rw [traceCalls]
      split
      · exact Nat.zero_le _
      · rename_i hdep
        split
        · omega
        · rename_i hit _
          have hrec := ih (depth + 1) (by omega)
            (hit.randomOutgoingRay fns s.triangleMesh (rng depth).1 (rng depth).2)
          omega

/-- Claim C7: `trace` is a total function of its inputs (it is defined below
by well-founded recursion on `recursion_depth + 1 − depth`), and along its
single recursion path starting at depth 0 it performs at most
`recursion_depth + 1` calls to `scene.intersect`. -/
theorem traceCalls_from_zero_bound (s : Scene) (fns : MathFns) (d : ℕ)
    (rng : ℕ → ℚ × ℚ) (ray : Ray) :
    traceCalls s fns d rng ray 0 ≤ d + 1 := by
  have h := traceCalls_le_sub s fns d rng (d + 1) 0 (by omega) ray
  simpa using h

/-- Claim C3: `SceneRenderer::trace` coincides, at every scene, depth bound,
random stream, ray, depth and throughput, with the recursion §4.8
prescribes: black past the depth limit, `scene.intersect(ray, 0.01, 100.0)`,
black on a miss, and on a hit `emissive · throughput · 5.0` plus the trace
of the random outgoing ray at `depth + 1` with the throughput attenuated
componentwise by the diffuse colour after the emissive term is accumulated. -/
theorem trace_eq_traceSpec (s : Scene) (fns : MathFns) (d : ℕ)
    (rng : ℕ → ℚ × ℚ) (ray : Ray) (depth : ℕ) (throughput : Vec3) :
    trace s fns d rng ray depth throughput =
      traceSpec s fns d rng ray depth throughput := by
  have main : ∀ (k depth : ℕ), d + 1 - depth ≤ k → ∀ (ray : Ray) (tp : Vec3),
      trace s fns d rng ray depth tp = traceSpec s fns d rng ray depth tp := by
    intro k
    induction k with
    | zero =>
        intro depth hk ray tp
        have hd : depth > d := by omega
        rw [trace, traceSpec]
        simp [hd]
    | succ k ih =>
        intro depth hk ray tp
        rw [trace]
        conv_rhs => rw [traceSpec]
        split
        · rfl
        · rename_i hdep
          rcases hcase : s.intersect ray (1 / 100) 100 with _ | hit
          · simp only [hcase]
          · simp only [hcase]
            rw [Vec3.zeroAdd, ih (depth + 1) (by omega)]
  exact main (d + 1) depth (by omega) ray throughput

lemma flatMapBlock_length {α : Type} (f : ℕ → ℕ → α) (n m : ℕ) :
    ((List.range n).flatMap fun x => (List.range m).map (f x)).length = n * m := by
  induction n with
  | zero => simp
  | succ n ih =>
      rw [List.range_succ, List.flatMap_append]
      simp [ih, Nat.succ_mul]

lemma flatMapBlock_getElem {α : Type} (f : ℕ → ℕ → α) (n m x y : ℕ)
    (hx : x < n) (hy : y < m) :
    ((List.range n).flatMap fun x => (List.range m).map (f x))[x * m + y]? =
      some (f x y) := by
  induction n with
  | zero => omega
  | succ n ih =>
      rw [List.range_succ, List.flatMap_append]
      rcases Nat.lt_or_ge x n with h | h
      · have hlt : x * m + y <
            ((List.range n).flatMap fun x => (List.range m).map (f x)).length := by
          rw [flatMapBlock_length]
          calc x * m + y < x * m + m := by omega
            _ = (x + 1) * m := by ring
            _ ≤ n * m := Nat.mul_le_mul_right m (by omega)
        rw [List.getElem?_append, if_pos hlt]
        exact ih h
      · have hx' : x = n := by omega
        subst hx'
        have hge : ¬ (x * m + y <
            ((List.range x).flatMap fun i => (List.range m).map (f i)).length) := by
          rw [flatMapBlock_length]
          omega
        rw [List.getElem?_append, if_neg hge, flatMapBlock_length]
        simp [hy]

/-- Claim C10: `Camera::get_camera_rays` iterates the inclusive ranges
`0..=width` and `0..=height` in x-major order: it returns exactly
`(width+1)·(height+1)` rays (not the `width·height` its capacity
reservation suggests), and the element at index `x·(height+1)+y` is
`get_ray(x, y)`. -/
theorem getCameraRays_inclusive_grid (c : Camera) :
    c.getCameraRays.length = (c.width + 1) * (c.height + 1) ∧
    ∀ x y : ℕ, x ≤ c.width → y ≤ c.height →
      c.getCameraRays[x * (c.height + 1) + y]? = some (c.getRay x y) := by
  constructor
  · exact flatMapBlock_length _ _ _
  · intro x y hx hy
    exact flatMapBlock_getElem _ _ _ _ _ (by omega) (by omega)

/-- A concrete 2×3 camera used to evaluate the camera-ray claims. -/
def exampleCamera : Camera :=
  ⟨2, 3, fun x y => ⟨Vec3.zero, ⟨x, y, 1⟩⟩, fun _ _ _ => ⟨Vec3.zero, Vec3.one⟩⟩

/-- Claim C10, witness: The inclusive grid evaluated on the concrete 2×3
camera: 12 rays, and index `1·4 + 2 = 6` holds `get_ray(1, 2)`. -/
theorem getCameraRays_inclusive_grid_witness :
    exampleCamera.getCameraRays.length = 12 ∧
    exampleCamera.getCameraRays[6]? = some (exampleCamera.getRay 1 2) :=
  ⟨(getCameraRays_inclusive_grid exampleCamera).1,
    (getCameraRays_inclusive_grid exampleCamera).2 1 2 (by decide) (by decide)⟩

/-- A math-function instantiation for concrete evaluations (its values are
irrelevant to every property evaluated with it). -/
def constFns : MathFns := ⟨fun _ => 0, fun _ => 0, 0, fun v => v⟩

/-- A valid scene with no objects and an empty mesh. -/
def emptyScene : Scene := ⟨[], ⟨[], [], [], []⟩⟩

/-- A 1×1 camera, as in scenario E1. -/
def onePixelCamera : Camera :=
  ⟨1, 1, fun _ _ => ⟨Vec3.zero, Vec3.one⟩, fun _ _ _ => ⟨Vec3.zero, Vec3.one⟩⟩

/-- Claim C1: `SceneRenderer::render` does not complete on a 1×1 image:
`update_count = width · height / 100 = 0`, and the very first rendered
pixel evaluates `progress % update_count` — a remainder by zero, which
panics.  Evaluated here on a valid (empty) scene with 1 sample and depth 1,
exactly the render configuration of scenario E1. -/
theorem render_one_pixel_panics :
    render emptyScene constFns onePixelCamera 1 1 (fun _ _ _ _ => (0, 0)) =
      Except.error "attempt to calculate the remainder with a divisor of zero" := by
  rfl

lemma TriangleMesh.getTriangle_congr (m1 m2 : TriangleMesh)
    (hvp : m1.vertexPositions = m2.vertexPositions)
    (hn : m1.triangleNormals = m2.triangleNormals) (ti : TriangleIndex) :
    m1.getTriangle ti = m2.getTriangle ti := by
  unfold TriangleMesh.getTriangle
  rw [hvp, hn]

lemma objectIntersect_congr (obj : Object) (m1 m2 : TriangleMesh)
    (hvp : m1.vertexPositions = m2.vertexPositions)
    (hn : m1.triangleNormals = m2.triangleNormals)
    (hti : m1.triangleIndices = m2.triangleIndices)
    (ray : Ray) (tMin tMax : ℚ) :
    obj.intersect m1 ray tMin tMax = obj.intersect m2 ray tMin tMax := by
  unfold Object.intersect Object.triangleIndicesOf
  rw [hti]
  have hfun : (fun ti => ((m1.getTriangle ti).intersect ray tMin tMax)) =
      (fun ti => ((m2.getTriangle ti).intersect ray tMin tMax)) :=
    funext fun ti => by rw [TriangleMesh.getTriangle_congr m1 m2 hvp hn ti]
  rw [hfun]

lemma sceneIntersect_congr (s1 s2 : Scene)
    (hobj : s1.objects = s2.objects)
    (hvp : s1.triangleMesh.vertexPositions = s2.triangleMesh.vertexPositions)
    (hn : s1.triangleMesh.triangleNormals = s2.triangleMesh.triangleNormals)
    (hti : s1.triangleMesh.triangleIndices = s2.triangleMesh.triangleIndices)
    (ray : Ray) (tMin tMax : ℚ) :
    s1.intersect ray tMin tMax = s2.intersect ray tMin tMax := by
  unfold Scene.intersect
  rw [hobj]
  have hfun : (fun obj => Object.intersect obj s1.triangleMesh ray tMin tMax) =
      (fun obj => Object.intersect obj s2.triangleMesh ray tMin tMax) :=
    funext fun obj => objectIntersect_congr obj _ _ hvp hn hti ray tMin tMax
  rw [hfun]

lemma Hit.randomOutgoingRay_congr (h : Hit) (fns : MathFns)
    (m1 m2 : TriangleMesh)
    (hvp : m1.vertexPositions = m2.vertexPositions)
    (hn : m1.triangleNormals = m2.triangleNormals) (r1 r2 : ℚ) :
    h.randomOutgoingRay fns m1 r1 r2 = h.randomOutgoingRay fns m2 r1 r2 := by
  unfold Hit.randomOutgoingRay
  rw [TriangleMesh.getTriangle_congr m1 m2 hvp hn]

/-- Claim C9: `trace` — and with it `render` — reads only the diffuse and
emissive fields of the materials: two scenes with identical geometry,
objects and triangle indices whose material tables agree pointwise on
`diffuse_color` and `emissive_color` (but may differ arbitrarily in
`ambient_color`, `specular_color`, `specular_highlight`, `transparency`
and `index_of_refraction`) produce identical traces and identical render
output under any identical random-number stream. -/
theorem trace_render_ignore_nonshading_fields (s1 s2 : Scene)
    (hobj : s1.objects = s2.objects)
    (hvp : s1.triangleMesh.vertexPositions = s2.triangleMesh.vertexPositions)
    (hn : s1.triangleMesh.triangleNormals = s2.triangleMesh.triangleNormals)
    (hti : s1.triangleMesh.triangleIndices = s2.triangleMesh.triangleIndices)
    (hmat : ∀ i : ℕ,
      (s1.triangleMesh.materials.getD i Material.default).diffuseColor =
        (s2.triangleMesh.materials.getD i Material.default).diffuseColor ∧
      (s1.triangleMesh.materials.getD i Material.default).emissiveColor =
        (s2.triangleMesh.materials.getD i Material.default).emissiveColor) :
    (∀ (fns : MathFns) (d : ℕ) (rng : ℕ → ℚ × ℚ) (ray : Ray) (depth : ℕ)
        (tp : Vec3),
      trace s1 fns d rng ray depth tp = trace s2 fns d rng ray depth tp) ∧
    (∀ (fns : MathFns) (cam : Camera) (sampleCount d : ℕ)
        (rng : ℕ → ℕ → ℕ → ℕ → ℚ × ℚ),
      render s1 fns cam sampleCount d rng = render s2 fns cam sampleCount d rng) := by
  have htrace : ∀ (fns : MathFns) (d : ℕ) (rng : ℕ → ℚ × ℚ) (ray : Ray)
      (depth : ℕ) (tp : Vec3),
      trace s1 fns d rng ray depth tp = trace s2 fns d rng ray depth tp := by
    intro fns d rng
    have main : ∀ (k depth : ℕ), d + 1 - depth ≤ k → ∀ (ray : Ray) (tp : Vec3),
        trace s1 fns d rng ray depth tp = trace s2 fns d rng ray depth tp := by
      intro k
      induction k with
      | zero =>
          intro depth hk ray tp
          have hd : depth > d := by omega
          rw [trace]
          conv_rhs => rw [trace]
          simp [hd]
      | succ k ih =>
          intro depth hk ray tp
          rw [trace]
          conv_rhs => rw [trace]
          split
          · rfl
          · rename_i hdep
            rw [← sceneIntersect_congr s1 s2 hobj hvp hn hti ray (1 / 100) 100]
            rcases hcase : s1.intersect ray (1 / 100) 100 with _ | hit
            · simp only [hcase]
            · simp only [hcase]
              have hE : (hit.material s1.triangleMesh).emissiveColor =
                  (hit.material s2.triangleMesh).emissiveColor :=
                (hmat hit.materialIndex).2
              have hD : (hit.material s1.triangleMesh).diffuseColor =
                  (hit.material s2.triangleMesh).diffuseColor :=
                (hmat hit.materialIndex).1
              have hR : hit.randomOutgoingRay fns s1.triangleMesh
                    (rng depth).1 (rng depth).2 =
                  hit.randomOutgoingRay fns s2.triangleMesh
                    (rng depth).1 (rng depth).2 :=
                Hit.randomOutgoingRay_congr hit fns _ _ hvp hn _ _
              rw [hE, hD, hR, ih (depth + 1) (by omega)]
    intro ray depth tp
    exact main (d + 1) depth (by omega) ray tp
  refine ⟨htrace, ?_⟩
  intro fns cam sampleCount d rng
  unfold render
  have hpix : ∀ x y : ℕ,
      renderPixel s1 fns cam sampleCount d (rng x y) x y =
        renderPixel s2 fns cam sampleCount d (rng x y) x y := by
    intro x y
    unfold renderPixel
    have hfun : (fun k => trace s1 fns d (rng x y k) (cam.jitteredRay x y k) 0 Vec3.one) =
        (fun k => trace s2 fns d (rng x y k) (cam.jitteredRay x y k) 0 Vec3.one) :=
      funext fun k => htrace fns d (rng x y k) (cam.jitteredRay x y k) 0 Vec3.one
    rw [hfun]
  have hfun2 : (fun (_ : Unit) =>
      { width := cam.width, height := cam.height,
        pix := fun x y =>
          vec3ToRgb (renderPixel s1 fns cam sampleCount d (rng x y) x y) : Image }) =
      (fun (_ : Unit) =>
        { width := cam.width, height := cam.height,
          pix := fun x y =>
            vec3ToRgb (renderPixel s2 fns cam sampleCount d (rng x y) x y) : Image }) := by
    funext u
    congr 1
    funext x y
    rw [hpix]
  exact congrArg (fun g => Except.map g _) hfun2

/-- The geometry of `exampleMesh` with a red-diffuse, green-emissive material
whose remaining fields are all zero (index of refraction 1). -/
def shadedMeshA : TriangleMesh :=
  ⟨[⟨-10, -10, 5⟩, ⟨10, -10, 5⟩, ⟨0, 10, 5⟩], [⟨0, 0, -1⟩],
    [⟨Vec3.zero, ⟨1, 0, 0⟩, Vec3.zero, 0, ⟨0, 1, 0⟩, 0, 1⟩], [⟨0, 1, 2, 0, 0⟩]⟩

/-- The same scene data as `shadedMeshA` except for the ambient
colour, specular colour, specular highlight, transparency and index of
refraction of the material. -/
def shadedMeshB : TriangleMesh :=
  ⟨[⟨-10, -10, 5⟩, ⟨10, -10, 5⟩, ⟨0, 10, 5⟩], [⟨0, 0, -1⟩],
    [⟨Vec3.one, ⟨1, 0, 0⟩, Vec3.one, 32, ⟨0, 1, 0⟩, 1 / 2, 3 / 2⟩],
    [⟨0, 1, 2, 0, 0⟩]⟩

/-- One-object scene over `shadedMeshA`. -/
def shadedSceneA : Scene :=
  ⟨[⟨"triangle", 0, 1, ⟨⟨-10, -10, 5⟩, ⟨10, 10, 5⟩⟩⟩], shadedMeshA⟩

/-- One-object scene over `shadedMeshB`. -/
def shadedSceneB : Scene :=
  ⟨[⟨"triangle", 0, 1, ⟨⟨-10, -10, 5⟩, ⟨10, 10, 5⟩⟩⟩], shadedMeshB⟩

/-- Claim C9, witness: The non-shading material fields evaluated away on two
concrete scenes that differ exactly there. -/
theorem trace_render_ignore_nonshading_fields_witness :
    trace shadedSceneA constFns 1 (fun _ => (0, 0)) exampleRay 0 Vec3.one =
      trace shadedSceneB constFns 1 (fun _ => (0, 0)) exampleRay 0 Vec3.one :=
  (trace_render_ignore_nonshading_fields shadedSceneA shadedSceneB rfl rfl rfl rfl
      (fun i => by rcases i with _ | i <;> exact ⟨rfl, rfl⟩)).1
    constFns 1 (fun _ => (0, 0)) exampleRay 0 Vec3.one

end RusticVision
